import Mathlib

/-!
# Verification of the response parser in `src/agents/code_reviewer.py`

This file gives a shallow embedding of `CodeReviewAgent._parse_response`
and its helpers (`_extract_issues`, `_extract_suggestions`,
`_calculate_complexity`) and proves the specified properties of the
line-prefix scan.

Modelling conventions:
* Python `str` values are Lean `String`s (a `structure` holding a
  `List Char`, matching Python's sequence-of-code-points view).
* `str.strip()` is modelled over the ASCII whitespace characters that
  Python strips (space, tab, newline, vertical tab, form feed,
  carriage return); inputs in this development are ASCII.
* `int(...)` is modelled by `pyIntParse`: optional sign, then ASCII
  digits with single underscores allowed between digits, as CPython
  accepts; anything else fails (returns `none`, modelling `ValueError`).
* A Python dict `{'description': d}` that may later gain `'line'` and
  `'suggestion'` keys is the structure `Issue` with `Option` fields;
  `none` models an absent key.
* The argument of `_extract_issues` may be any Python object.  We model
  the two relevant cases: a `str`, on which `.split('\n')` succeeds and
  the scan is total, and a non-`str` object, on which attribute lookup
  of `.split` raises `AttributeError`.  The `try`/`except` at the top of
  `_extract_issues` is modelled by `scanBody` returning `Except` and the
  wrapper turning an exception into `[]`.
-/

/-- The whitespace characters removed by Python `str.strip()` (ASCII
fragment): space, tab, newline, vertical tab, form feed, carriage return. -/
def pyIsSpace (c : Char) : Bool :=
  c = ' ' || c = '\t' || c = '\n' || c = Char.ofNat 11 || c = Char.ofNat 12 || c = '\r'

/-- `str.strip()` on the underlying character list. -/
def stripList (cs : List Char) : List Char :=
  ((cs.dropWhile pyIsSpace).reverse.dropWhile pyIsSpace).reverse

/-- Python `s.strip()`. -/
def pyStrip (s : String) : String :=
  ⟨stripList s.data⟩

/-- Python slicing `s[n:]` (by code points). -/
def pyDrop (n : Nat) (s : String) : String :=
  ⟨s.data.drop n⟩

/-- Python `s.startswith(p)`. -/
def pyStartswith (s p : String) : Bool :=
  p.data.isPrefixOf s.data

/-- Equality of character lists up to letter case (used to state that
prefix matching is case-sensitive: a case variant of a prefix that is
not the prefix itself does not match). -/
def eqCaseInsensitive : List Char → List Char → Bool
  | [], [] => true
  | b :: bs, a :: as => (b.toLower == a.toLower) && eqCaseInsensitive bs as
  | _, _ => false

/-- Numeric value of a digit-and-underscore run (underscores are digit
group separators and do not contribute). -/
def digitsVal (cs : List Char) : Nat :=
  cs.foldl (fun a c => if c = '_' then a else a * 10 + (c.toNat - 48)) 0

/-- Validity of the tail of a digit run for CPython `int`: digits, with
each underscore followed by a digit (so no leading, trailing or doubled
underscore). -/
def digitsTail : List Char → Bool
  | [] => true
  | c :: rest =>
    if c.isDigit then digitsTail rest
    else if c = '_' then
      match rest with
      | [] => false
      | d :: _ => d.isDigit && digitsTail rest
    else false

/-- Model of Python `int(s)` on a string: strips whitespace, accepts an
optional sign followed by a nonempty digit run (underscores allowed
between digits); `none` models `ValueError`. -/
def pyIntParse (s : String) : Option Int :=
  let cs := stripList s.data
  let sb : Bool × List Char :=
    match cs with
    | '-' :: rest => (true, rest)
    | '+' :: rest => (false, rest)
    | _ => (false, cs)
  match sb.2 with
  | [] => none
  | c :: rest =>
    if c.isDigit && digitsTail rest then
      let v : Int := Int.ofNat (digitsVal sb.2)
      some (if sb.1 then -v else v)
    else none

/-- Python `s.split('\n')`: every `'\n'` is a separator, empty fields are
kept (so a trailing newline yields a final empty line).  `acc` is the
current field read so far. -/
def splitLinesAux : List Char → List Char → List String
  | [], acc => [⟨acc.reverse⟩]
  | '\n' :: rest, acc => ⟨acc.reverse⟩ :: splitLinesAux rest []
  | c :: rest, acc => splitLinesAux rest (c :: acc)

/-- Python `response.split('\n')`. -/
def pySplitNewline (s : String) : List String :=
  splitLinesAux s.data []

/-- One parsed issue record: the dict built by `_extract_issues`.
`none` in `line` / `suggestion` models the key being absent. -/
structure Issue where
  description : String
  line : Option Int := none
  suggestion : Option String := none
  deriving DecidableEq, Repr

/-- Placeholder element type for the always-empty `suggestions` list. -/
structure Suggestion where
  content : String
  deriving DecidableEq, Repr

/-- The dict returned by `_parse_response`. -/
structure AnalysisResult where
  issues : List Issue
  suggestions : List Suggestion
  complexity_score : Int
  deriving DecidableEq, Repr

/-- The value stored by `current_issue['line'] = int(line[5:].strip())`
with its local `except ValueError: current_issue['line'] = 0`. -/
def lineFieldVal (line : String) : Int :=
  match pyIntParse (pyStrip (pyDrop 5 line)) with
  | some n => n
  | none => 0

/-- The `for line in lines` loop of `_extract_issues`: `cur` is
`current_issue` (an open accumulator or `None`), `issues` the output
list built so far.  Branch order mirrors the `if`/`elif` chain; the
`and current_issue` guards become the inner `match`es (a line starting
with `Line:` never starts with `Suggestion:`, so falling through the
`elif` chain with a closed accumulator ignores the line either way).
The final `if current_issue: issues.append(current_issue)` is the
end-of-input case. -/
def scanLines : List String → Option Issue → List Issue → List Issue
  | [], cur, issues =>
    match cur with
    | some i => issues ++ [i]
    | none => issues
  | line :: rest, cur, issues =>
    if pyStartswith line "Issue:" then
      let issues' := match cur with | some i => issues ++ [i] | none => issues
      scanLines rest (some { description := pyStrip (pyDrop 6 line) }) issues'
    else if pyStartswith line "Line:" then
      match cur with
      | some i => scanLines rest (some { i with line := some (lineFieldVal line) }) issues
      | none => scanLines rest cur issues
    else if pyStartswith line "Suggestion:" then
      match cur with
      | some i => scanLines rest (some { i with suggestion := some (pyStrip (pyDrop 11 line)) }) issues
      | none => scanLines rest cur issues
    else
      scanLines rest cur issues

/-- The argument passed to `_extract_issues`: either a Python `str` or a
non-string object (such as a chat-model message), which has no `.split`
attribute. -/
inductive PyResponse where
  | str (s : String)
  | nonStr (typeName : String)
  deriving DecidableEq, Repr

/-- A Python exception escaping the scan body. -/
inductive PyExc where
  | attributeError (msg : String)
  deriving DecidableEq, Repr

/-- The body of the `try:` block of `_extract_issues`.  On a `str` the
scan is total (the only possible exception, `ValueError` from `int`, is
caught locally); on a non-string, `response.split('\n')` raises
`AttributeError`. -/
def scanBody : PyResponse → Except PyExc (List Issue)
  | .str s => .ok (scanLines (pySplitNewline s) none [])
  | .nonStr t => .error (.attributeError (t ++ " object has no attribute split"))

/-- `_extract_issues`: the `except Exception` clause prints and returns
`[]`. -/
def _extract_issues (response : PyResponse) : List Issue :=
  match scanBody response with
  | .ok issues => issues
  | .error _ => []

/-- `_extract_suggestions`: stubbed to `[]`. -/
def _extract_suggestions (_ : PyResponse) : List Suggestion :=
  []

/-- `_calculate_complexity`: stubbed to `0`. -/
def _calculate_complexity (_ : PyResponse) : Int :=
  0

/-- `_parse_response`. -/
def _parse_response (response : PyResponse) : AnalysisResult :=
  { issues := _extract_issues response
    suggestions := _extract_suggestions response
    complexity_score := _calculate_complexity response }

/-- The effect of one non-`Issue:` line on an open accumulator: this is
the `elif` part of the loop body, conditions checked in source order. -/
def stepLine (i : Issue) (l : String) : Issue :=
  if pyStartswith l "Line:" then { i with line := some (lineFieldVal l) }
  else if pyStartswith l "Suggestion:" then { i with suggestion := some (pyStrip (pyDrop 11 l)) }
  else i

/-! ## Block decomposition

The specification describes the output as one independently-populated
record per `Issue:` block.  `blocks` splits the line list into blocks
(each `Issue:` line together with the lines following it up to the next
`Issue:` line); `issueOfBlock` populates one record from one block,
using only that block's lines.  The refinement theorem identifies the
code's scan with mapping `issueOfBlock` over the blocks. -/

def isIssueLine (l : String) : Bool :=
  pyStartswith l "Issue:"

/-- Accumulate blocks: `cur` is the open block (header line and body
lines so far), `acc` the finished blocks. -/
def blocksGo : List String → Option (String × List String) →
    List (String × List String) → List (String × List String)
  | [], cur, acc =>
    match cur with
    | some b => acc ++ [b]
    | none => acc
  | l :: rest, cur, acc =>
    if isIssueLine l then
      let acc' := match cur with | some b => acc ++ [b] | none => acc
      blocksGo rest (some (l, [])) acc'
    else
      match cur with
      | some b => blocksGo rest (some (b.1, b.2 ++ [l])) acc
      | none => blocksGo rest none acc

/-- The `Issue:` blocks of a line list, per the specification: lines
before the first `Issue:` line belong to no block. -/
def blocks (ls : List String) : List (String × List String) :=
  blocksGo ls none []

/-- The record one block yields, per the specification: `description`
from the header line, then the body lines applied in order. -/
def issueOfBlock (b : String × List String) : Issue :=
  b.2.foldl stepLine
    { description := pyStrip (pyDrop 6 b.1), line := none, suggestion := none }

example :
    _extract_issues (PyResponse.str "Issue: foo\nLine: 12\nSuggestion: bar\n")
      = [{ description := "foo", line := some 12, suggestion := some "bar" }] := by
  decide

example : _extract_issues (PyResponse.str "Issue: foo\nLine: notanumber\n")
    = [{ description := "foo", line := some 0, suggestion := none }] := by
  decide

example : pyIntParse "  -1_2  " = some (-12) := by decide
example : pyIntParse "1__2" = none := by decide
example : pyIntParse "+7" = some 7 := by decide
example : pyIntParse "" = none := by decide

/-! ## Basic lemmas about the embedded string primitives -/

theorem isPrefixOf_head (c : Char) (p t : List Char)
    (h : List.isPrefixOf (c :: p) t = true) : ∃ r, t = c :: r ∧ List.isPrefixOf p r = true := by
  cases t with
  | nil => simp at h
  | cons a r =>
    rw [List.isPrefixOf_cons₂] at h
    have h2 := h
    simp only [Bool.and_eq_true, beq_iff_eq] at h2
    exact ⟨r, by rw [h2.1], h2.2⟩

theorem isPrefixOf_head_ne (c d : Char) (p r : List Char) (h : c ≠ d) :
    List.isPrefixOf (c :: p) (d :: r) = false := by
  rw [List.isPrefixOf_cons₂]
  have : (c == d) = false := beq_eq_false_iff_ne.mpr h
  rw [this, Bool.false_and]

/-- A line matched by the `Line:` branch was not matched by the `Issue:`
branch above it (distinct first characters). -/
theorem line_not_issue (l : String) (h : pyStartswith l "Line:" = true) :
    pyStartswith l "Issue:" = false := by
  unfold pyStartswith at h ⊢
  rw [show ("Line:" : String).data = 'L' :: ['i', 'n', 'e', ':'] from rfl] at h
  obtain ⟨r, hr, -⟩ := isPrefixOf_head _ _ _ h
  rw [show ("Issue:" : String).data = 'I' :: ['s', 's', 'u', 'e', ':'] from rfl, hr]
  exact isPrefixOf_head_ne _ _ _ _ (by decide)

/-- A line matched by the `Suggestion:` branch was not matched by the
`Issue:` branch. -/
theorem sugg_not_issue (l : String) (h : pyStartswith l "Suggestion:" = true) :
    pyStartswith l "Issue:" = false := by
  unfold pyStartswith at h ⊢
  rw [show ("Suggestion:" : String).data
      = 'S' :: ['u', 'g', 'g', 'e', 's', 't', 'i', 'o', 'n', ':'] from rfl] at h
  obtain ⟨r, hr, -⟩ := isPrefixOf_head _ _ _ h
  rw [show ("Issue:" : String).data = 'I' :: ['s', 's', 'u', 'e', ':'] from rfl, hr]
  exact isPrefixOf_head_ne _ _ _ _ (by decide)

/-- A line matched by the `Suggestion:` branch was not matched by the
`Line:` branch. -/
theorem sugg_not_line (l : String) (h : pyStartswith l "Suggestion:" = true) :
    pyStartswith l "Line:" = false := by
  unfold pyStartswith at h ⊢
  rw [show ("Suggestion:" : String).data
      = 'S' :: ['u', 'g', 'g', 'e', 's', 't', 'i', 'o', 'n', ':'] from rfl] at h
  obtain ⟨r, hr, -⟩ := isPrefixOf_head _ _ _ h
  rw [show ("Line:" : String).data = 'L' :: ['i', 'n', 'e', ':'] from rfl, hr]
  exact isPrefixOf_head_ne _ _ _ _ (by decide)

/-! ## Structural lemmas about the scan -/

theorem scanLines_cons_some (l : String) (rest : List String) (i : Issue) (acc : List Issue)
    (hI : pyStartswith l "Issue:" = false) :
    scanLines (l :: rest) (some i) acc = scanLines rest (some (stepLine i l)) acc := by
  simp only [scanLines, stepLine, hI, Bool.false_eq_true, if_false]
  split
  · rfl
  · split <;> rfl

theorem scanLines_cons_none (l : String) (rest : List String) (acc : List Issue)
    (hI : pyStartswith l "Issue:" = false) :
    scanLines (l :: rest) none acc = scanLines rest none acc := by
  simp only [scanLines, hI, Bool.false_eq_true, if_false]
  split
  · rfl
  · split <;> rfl

/-- The `issues` accumulator only ever grows by appending on the right. -/
theorem scanLines_acc (ls : List String) : ∀ (cur : Option Issue) (a : List Issue),
    scanLines ls cur a = a ++ scanLines ls cur [] := by
  induction ls with
  | nil => intro cur a; cases cur <;> simp [scanLines]
  | cons l rest ih =>
    intro cur a
    by_cases hI : pyStartswith l "Issue:" = true
    · cases cur with
      | none =>
        simp only [scanLines, hI, if_true]
        exact ih _ a
      | some i =>
        simp only [scanLines, hI, if_true, List.nil_append]
        rw [ih _ (a ++ [i]), ih _ [i], List.append_assoc]
    · have hI' : pyStartswith l "Issue:" = false := by
        cases h : pyStartswith l "Issue:" with
        | false => rfl
        | true => exact absurd h hI
      cases cur with
      | none => rw [scanLines_cons_none _ _ _ hI', scanLines_cons_none _ _ _ hI']; exact ih _ a
      | some i => rw [scanLines_cons_some _ _ _ _ hI', scanLines_cons_some _ _ _ _ hI']; exact ih _ a

/-- Once the last accumulator is open and no further `Issue:` line
appears, the scan folds the remaining lines into it and emits it last. -/
theorem scanLines_flush (ls : List String) : ∀ (i : Issue) (acc : List Issue),
    (∀ l ∈ ls, pyStartswith l "Issue:" = false) →
    scanLines ls (some i) acc = acc ++ [ls.foldl stepLine i] := by
  induction ls with
  | nil => intro i acc _; simp [scanLines]
  | cons l rest ih =>
    intro i acc h
    rw [scanLines_cons_some _ _ _ _ (h l (by simp))]
    rw [ih _ _ (fun x hx => h x (by simp [hx]))]
    rfl

/-- With no open accumulator, a run of lines none of which starts with
`Issue:` contributes nothing. -/
theorem scanLines_no_issue_none (ls : List String) : ∀ (acc : List Issue),
    (∀ l ∈ ls, pyStartswith l "Issue:" = false) →
    scanLines ls none acc = acc := by
  induction ls with
  | nil => intro acc _; simp [scanLines]
  | cons l rest ih =>
    intro acc h
    rw [scanLines_cons_none _ _ _ (h l (by simp))]
    exact ih _ (fun x hx => h x (by simp [hx]))


theorem issueOfBlock_snoc (b : String × List String) (l : String) :
    issueOfBlock (b.1, b.2 ++ [l]) = stepLine (issueOfBlock b) l := by
  unfold issueOfBlock
  rw [List.foldl_append]
  rfl

/-- The scan runs in lockstep with the block accumulation. -/
theorem scan_blocksGo (ls : List String) :
    ∀ (cur : Option (String × List String)) (acc : List (String × List String)),
    scanLines ls (cur.map issueOfBlock) (acc.map issueOfBlock)
      = (blocksGo ls cur acc).map issueOfBlock := by
  induction ls with
  | nil =>
    intro cur acc
    cases cur <;> simp [scanLines, blocksGo]
  | cons l rest ih =>
    intro cur acc
    by_cases hI : isIssueLine l = true
    · have hI' : pyStartswith l "Issue:" = true := hI
      have hfresh : (some { description := pyStrip (pyDrop 6 l) } : Option Issue)
          = Option.map issueOfBlock (some (l, [])) := rfl
      cases cur with
      | none =>
        simp only [scanLines, blocksGo, hI, hI', if_true, Option.map_none']
        rw [hfresh]
        exact ih _ acc
      | some b =>
        simp only [scanLines, blocksGo, hI, hI', if_true, Option.map_some']
        rw [hfresh, show (List.map issueOfBlock acc) ++ [issueOfBlock b]
            = List.map issueOfBlock (acc ++ [b]) from by simp]
        exact ih _ (acc ++ [b])
    · have hI' : pyStartswith l "Issue:" = false := by
        simpa [isIssueLine] using hI
      cases cur with
      | none =>
        rw [Option.map_none', scanLines_cons_none _ _ _ hI']
        have hb : blocksGo (l :: rest) none acc = blocksGo rest none acc := by
          simp [blocksGo, hI]
        rw [hb]
        exact ih none acc
      | some b =>
        rw [Option.map_some', scanLines_cons_some _ _ _ _ hI']
        have hb : blocksGo (l :: rest) (some b) acc
            = blocksGo rest (some (b.1, b.2 ++ [l])) acc := by
          simp [blocksGo, hI]
        rw [hb, show stepLine (issueOfBlock b) l = issueOfBlock (b.1, b.2 ++ [l]) from
          (issueOfBlock_snoc b l).symm]
        exact ih (some (b.1, b.2 ++ [l])) acc

/-- The scan is exactly `issueOfBlock` mapped over the blocks. -/
theorem scan_eq_blocks (ls : List String) :
    scanLines ls none [] = (blocks ls).map issueOfBlock :=
  scan_blocksGo ls none []

/-- `_extract_issues` on a string input, through the block view. -/
theorem extract_issues_eq_blocks (s : String) :
    _extract_issues (PyResponse.str s)
      = (blocks (pySplitNewline s)).map issueOfBlock := by
  show scanLines (pySplitNewline s) none [] = _
  exact scan_eq_blocks _

/-- Whatever came before, an `Issue:` line followed only by
non-`Issue:` lines ends the scan with exactly that block's record. -/
theorem scan_trailing (l : String) (post : List String)
    (hl : pyStartswith l "Issue:" = true)
    (hpost : ∀ x ∈ post, pyStartswith x "Issue:" = false) :
    ∀ (pre : List String) (cur : Option Issue) (acc : List Issue),
    ∃ front, scanLines (pre ++ l :: post) cur acc = front ++ [issueOfBlock (l, post)] := by
  intro pre
  induction pre with
  | nil =>
    intro cur acc
    refine ⟨(match cur with | some i => acc ++ [i] | none => acc), ?_⟩
    simp only [List.nil_append, scanLines, hl, if_true]
    rw [scanLines_flush _ _ _ hpost]
    rfl
  | cons x xs ih =>
    intro cur acc
    by_cases hx : pyStartswith x "Issue:" = true
    · rw [List.cons_append]
      simp only [scanLines, hx, if_true]
      exact ih _ _
    · have hx' : pyStartswith x "Issue:" = false := by
        cases h : pyStartswith x "Issue:" with
        | false => rfl
        | true => exact absurd h hx
      cases cur with
      | some i =>
        rw [List.cons_append, scanLines_cons_some _ _ _ _ hx']
        exact ih _ _
      | none =>
        rw [List.cons_append, scanLines_cons_none _ _ _ hx']
        exact ih _ _

/-- Lines that do not start with `Line:` never touch the `line` key. -/
theorem foldl_stepLine_line_stable (body : List String) :
    ∀ (i : Issue), (∀ x ∈ body, pyStartswith x "Line:" = false) →
    (body.foldl stepLine i).line = i.line := by
  induction body with
  | nil => intro i _; rfl
  | cons x xs ih =>
    intro i h
    rw [List.foldl_cons, ih _ (fun y hy => h y (by simp [hy]))]
    simp only [stepLine, h x (by simp), Bool.false_eq_true, if_false]
    split <;> rfl

/-- Lines that do not start with `Suggestion:` never touch the
`suggestion` key. -/
theorem foldl_stepLine_sugg_stable (body : List String) :
    ∀ (i : Issue), (∀ x ∈ body, pyStartswith x "Suggestion:" = false) →
    (body.foldl stepLine i).suggestion = i.suggestion := by
  induction body with
  | nil => intro i _; rfl
  | cons x xs ih =>
    intro i h
    rw [List.foldl_cons, ih _ (fun y hy => h y (by simp [hy]))]
    simp only [stepLine]
    split
    · rfl
    · rw [h x (by simp)]
      rfl

/-! ## The claims -/

/-- C1: for the input string `"Issue: foo\nLine: 12\nSuggestion: bar\n"`,
the parse operation returns exactly one issue
`{description: "foo", line: 12, suggestion: "bar"}`, with description and
suggestion the remainders of their lines after the prefixes, trimmed. -/
theorem c1_single_block_example :
    (_parse_response (PyResponse.str "Issue: foo\nLine: 12\nSuggestion: bar\n")).issues
      = [{ description := "foo", line := some 12, suggestion := some "bar" }] := by
  decide

/-- C2: for every input, including the empty string and non-string
objects, the result's `suggestions` field is the empty sequence and its
`complexity_score` field is `0`. -/
theorem c2_stub_fields (r : PyResponse) :
    (_parse_response r).suggestions = [] ∧ (_parse_response r).complexity_score = 0 :=
  ⟨rfl, rfl⟩

/-- C3: any exception escaping the scan (other than the locally-caught
`ValueError` of a `Line:` value, which never escapes) is caught at the
top of `_extract_issues` and turned into an empty issue sequence; it is
never propagated (the model of the operation is total). -/
theorem c3_scan_exception_empty (r : PyResponse) (e : PyExc)
    (h : scanBody r = Except.error e) :
    (_parse_response r).issues = [] := by
  show _extract_issues r = []
  unfold _extract_issues
  rw [h]

theorem c3_witness :
    scanBody (PyResponse.nonStr "AIMessage")
        = Except.error (PyExc.attributeError "AIMessage object has no attribute split")
      ∧ (_parse_response (PyResponse.nonStr "AIMessage")).issues = [] :=
  ⟨rfl, c3_scan_exception_empty (PyResponse.nonStr "AIMessage")
    (PyExc.attributeError "AIMessage object has no attribute split") rfl⟩

/-- C4: a `Line:` line whose remainder does not parse as an integer,
reached with an open accumulator, sets `line` to `0` locally and the
scan continues with the following lines; the top-level catch is not
involved (the step is an equation between continuing scans). -/
theorem c4_bad_line_number_zero (l : String) (rest : List String)
    (i : Issue) (acc : List Issue)
    (hL : pyStartswith l "Line:" = true)
    (hP : pyIntParse (pyStrip (pyDrop 5 l)) = none) :
    scanLines (l :: rest) (some i) acc
      = scanLines rest (some { i with line := some 0 }) acc := by
  have hI : pyStartswith l "Issue:" = false := line_not_issue l hL
  simp only [scanLines, hI, Bool.false_eq_true, if_false, hL, if_true]
  have h0 : lineFieldVal l = 0 := by
    unfold lineFieldVal
    rw [hP]
  rw [h0]

theorem c4_witness :
    pyIntParse (pyStrip (pyDrop 5 "Line: notanumber")) = none
      ∧ scanLines ["Line: notanumber"] (some { description := "foo" }) []
          = [{ description := "foo", line := some 0 }] := by
  refine ⟨by decide, ?_⟩
  rw [c4_bad_line_number_zero "Line: notanumber" [] { description := "foo" } []
    (by decide) (by decide)]
  decide

/-- C5: for every input the issue list is exactly `issueOfBlock` mapped,
in input order, over the `Issue:` blocks of the input lines; hence with
two or more blocks the output preserves the order of their `Issue:`
lines, each block yields its own record, and each record is populated
only from its own block's lines (no field leaks into a later block). -/
theorem c5_blocks_in_order_independent (s : String) :
    (_parse_response (PyResponse.str s)).issues
      = (blocks (pySplitNewline s)).map issueOfBlock :=
  extract_issues_eq_blocks s

/-- C6: when the last `Issue:` line of the input is followed by no
further `Issue:` line, that trailing open block is finalized at
end-of-input and its record is the last element of the output. -/
theorem c6_trailing_block_emitted (s : String) (pre : List String) (l : String)
    (post : List String)
    (hsplit : pySplitNewline s = pre ++ l :: post)
    (hl : pyStartswith l "Issue:" = true)
    (hpost : ∀ x ∈ post, pyStartswith x "Issue:" = false) :
    ∃ front, (_parse_response (PyResponse.str s)).issues
      = front ++ [issueOfBlock (l, post)] := by
  have h0 : (_parse_response (PyResponse.str s)).issues
      = scanLines (pySplitNewline s) none [] := rfl
  rw [h0, hsplit]
  exact scan_trailing l post hl hpost pre none []

theorem c6_witness :
    ∃ front, (_parse_response (PyResponse.str "junk\nIssue: a\nLine: 2")).issues
      = front ++ [issueOfBlock ("Issue: a", ["Line: 2"])] :=
  c6_trailing_block_emitted "junk\nIssue: a\nLine: 2" ["junk"] "Issue: a" ["Line: 2"]
    (by decide) (by decide) (by decide)

/-- C7: an input none of whose lines starts with `Issue:` yields an
empty issue sequence: `Line:` and `Suggestion:` lines seen with no open
accumulator, and lines matching no prefix, are ignored. -/
theorem c7_no_issue_lines_empty (s : String)
    (h : ∀ l ∈ pySplitNewline s, pyStartswith l "Issue:" = false) :
    (_parse_response (PyResponse.str s)).issues = [] := by
  show _extract_issues (PyResponse.str s) = []
  show scanLines (pySplitNewline s) none [] = []
  exact scanLines_no_issue_none _ _ h

theorem c7_witness :
    (_parse_response (PyResponse.str "Line: 5\nSuggestion: x\nhello")).issues = [] :=
  c7_no_issue_lines_empty "Line: 5\nSuggestion: x\nhello" (by decide)

/-- A proper case variant of a word (same letters up to case, but not
identical) is rejected by exact prefix matching, wherever the case
difference sits. -/
theorem isPrefixOf_ne_caseVariant (p : List Char) : ∀ (q tail : List Char),
    eqCaseInsensitive q p = true → q ≠ p →
    List.isPrefixOf p (q ++ tail) = false := by
  induction p with
  | nil =>
    intro q tail hci hne
    cases q with
    | nil => exact absurd rfl hne
    | cons b bs => simp [eqCaseInsensitive] at hci
  | cons a p' ih =>
    intro q tail hci hne
    cases q with
    | nil => simp [eqCaseInsensitive] at hci
    | cons b q' =>
      have hci' : ((b.toLower == a.toLower) && eqCaseInsensitive q' p') = true := hci
      simp only [Bool.and_eq_true, beq_iff_eq] at hci'
      by_cases hba : b = a
      · subst hba
        have hne' : q' ≠ p' := by
          intro hq
          exact hne (by rw [hq])
        rw [List.cons_append, List.isPrefixOf_cons₂, ih q' tail hci'.2 hne']
        simp
      · rw [List.cons_append]
        exact isPrefixOf_head_ne a b _ _ (fun h => hba h.symm)

/-- A case-insensitive match of a nonempty word pins down the first
character up to case. -/
theorem eqCaseInsensitive_cons (q : List Char) (a : Char) (p : List Char)
    (h : eqCaseInsensitive q (a :: p) = true) :
    ∃ b q', q = b :: q' ∧ b.toLower = a.toLower ∧ eqCaseInsensitive q' p = true := by
  cases q with
  | nil => simp [eqCaseInsensitive] at h
  | cons b q' =>
    have h' : ((b.toLower == a.toLower) && eqCaseInsensitive q' p) = true := h
    simp only [Bool.and_eq_true, beq_iff_eq] at h'
    exact ⟨b, q', rfl, h'.1, h'.2⟩

/-- C8: prefix matching is exact, case- and whitespace-sensitive: a line
whose first character is whitespace (so in particular any line in which
a prefix is preceded by leading whitespace), and a line beginning with a
case variant of `Issue:`, `Line:` or `Suggestion:` that differs from the
exact prefix in the case of any letter (e.g. `issue:`, `ISSUE:`,
`LIne:`), matches none of the three prefixes and is ignored by the
scan, whatever the accumulator state. -/
theorem c8_prefix_match_exact (l : String) (rest : List String)
    (cur : Option Issue) (acc : List Issue)
    (hc : (∃ c cs, l.data = c :: cs ∧ pyIsSpace c = true)
      ∨ ∃ p q tail, (p = "Issue:" ∨ p = "Line:" ∨ p = "Suggestion:")
          ∧ l.data = q ++ tail ∧ eqCaseInsensitive q p.data = true ∧ q ≠ p.data) :
    pyStartswith l "Issue:" = false ∧ pyStartswith l "Line:" = false
      ∧ pyStartswith l "Suggestion:" = false
      ∧ scanLines (l :: rest) cur acc = scanLines rest cur acc := by
  have hm : pyStartswith l "Issue:" = false ∧ pyStartswith l "Line:" = false
      ∧ pyStartswith l "Suggestion:" = false := by
    rcases hc with ⟨c, cs, hl, hsp⟩ | ⟨p, q, tail, hp, hl, hci, hne⟩
    · have hI : c ≠ 'I' := by
        intro hEq
        rw [hEq] at hsp
        exact absurd hsp (by decide)
      have hL : c ≠ 'L' := by
        intro hEq
        rw [hEq] at hsp
        exact absurd hsp (by decide)
      have hS : c ≠ 'S' := by
        intro hEq
        rw [hEq] at hsp
        exact absurd hsp (by decide)
      refine ⟨?_, ?_, ?_⟩
      · unfold pyStartswith
        rw [show ("Issue:" : String).data = 'I' :: ['s', 's', 'u', 'e', ':'] from rfl, hl]
        exact isPrefixOf_head_ne _ _ _ _ (Ne.symm hI)
      · unfold pyStartswith
        rw [show ("Line:" : String).data = 'L' :: ['i', 'n', 'e', ':'] from rfl, hl]
        exact isPrefixOf_head_ne _ _ _ _ (Ne.symm hL)
      · unfold pyStartswith
        rw [show ("Suggestion:" : String).data
            = 'S' :: ['u', 'g', 'g', 'e', 's', 't', 'i', 'o', 'n', ':'] from rfl, hl]
        exact isPrefixOf_head_ne _ _ _ _ (Ne.symm hS)
    · have hstart : List.isPrefixOf p.data (q ++ tail) = false :=
        isPrefixOf_ne_caseVariant p.data q tail hci hne
      rcases hp with hp | hp | hp <;> subst hp
      · obtain ⟨b, q', hq, hb, -⟩ := eqCaseInsensitive_cons q 'I' ['s', 's', 'u', 'e', ':'] hci
        subst hq
        refine ⟨?_, ?_, ?_⟩
        · unfold pyStartswith
          rw [hl]
          exact hstart
        · unfold pyStartswith
          rw [show ("Line:" : String).data = 'L' :: ['i', 'n', 'e', ':'] from rfl, hl,
            List.cons_append]
          refine isPrefixOf_head_ne _ _ _ _ ?_
          intro h
          rw [← h] at hb
          exact absurd hb (by decide)
        · unfold pyStartswith
          rw [show ("Suggestion:" : String).data
              = 'S' :: ['u', 'g', 'g', 'e', 's', 't', 'i', 'o', 'n', ':'] from rfl, hl,
            List.cons_append]
          refine isPrefixOf_head_ne _ _ _ _ ?_
          intro h
          rw [← h] at hb
          exact absurd hb (by decide)
      · obtain ⟨b, q', hq, hb, -⟩ := eqCaseInsensitive_cons q 'L' ['i', 'n', 'e', ':'] hci
        subst hq
        refine ⟨?_, ?_, ?_⟩
        · unfold pyStartswith
          rw [show ("Issue:" : String).data = 'I' :: ['s', 's', 'u', 'e', ':'] from rfl, hl,
            List.cons_append]
          refine isPrefixOf_head_ne _ _ _ _ ?_
          intro h
          rw [← h] at hb
          exact absurd hb (by decide)
        · unfold pyStartswith
          rw [hl]
          exact hstart
        · unfold pyStartswith
          rw [show ("Suggestion:" : String).data
              = 'S' :: ['u', 'g', 'g', 'e', 's', 't', 'i', 'o', 'n', ':'] from rfl, hl,
            List.cons_append]
          refine isPrefixOf_head_ne _ _ _ _ ?_
          intro h
          rw [← h] at hb
          exact absurd hb (by decide)
      · obtain ⟨b, q', hq, hb, -⟩ := eqCaseInsensitive_cons q 'S'
          ['u', 'g', 'g', 'e', 's', 't', 'i', 'o', 'n', ':'] hci
        subst hq
        refine ⟨?_, ?_, ?_⟩
        · unfold pyStartswith
          rw [show ("Issue:" : String).data = 'I' :: ['s', 's', 'u', 'e', ':'] from rfl, hl,
            List.cons_append]
          refine isPrefixOf_head_ne _ _ _ _ ?_
          intro h
          rw [← h] at hb
          exact absurd hb (by decide)
        · unfold pyStartswith
          rw [show ("Line:" : String).data = 'L' :: ['i', 'n', 'e', ':'] from rfl, hl,
            List.cons_append]
          refine isPrefixOf_head_ne _ _ _ _ ?_
          intro h
          rw [← h] at hb
          exact absurd hb (by decide)
        · unfold pyStartswith
          rw [hl]
          exact hstart
  obtain ⟨p1, p2, p3⟩ := hm
  refine ⟨p1, p2, p3, ?_⟩
  cases cur with
  | none => exact scanLines_cons_none _ _ _ p1
  | some i =>
    rw [scanLines_cons_some _ _ _ _ p1]
    simp only [stepLine, p2, p3, Bool.false_eq_true, if_false]

theorem c8_witness :
    (pyStartswith " Issue: x" "Issue:" = false ∧ pyStartswith " Issue: x" "Line:" = false
        ∧ pyStartswith " Issue: x" "Suggestion:" = false
        ∧ scanLines [" Issue: x"] none [] = scanLines [] none [])
      ∧ (pyStartswith "ISSUE: x" "Issue:" = false ∧ pyStartswith "ISSUE: x" "Line:" = false
        ∧ pyStartswith "ISSUE: x" "Suggestion:" = false
        ∧ scanLines ["ISSUE: x"] none [] = scanLines [] none [])
      ∧ (pyStartswith "LIne: 3" "Issue:" = false ∧ pyStartswith "LIne: 3" "Line:" = false
        ∧ pyStartswith "LIne: 3" "Suggestion:" = false
        ∧ scanLines ["LIne: 3"] (some { description := "d" }) []
            = scanLines [] (some { description := "d" }) [])
      ∧ (pyStartswith "SUGGESTION: y" "Issue:" = false
        ∧ pyStartswith "SUGGESTION: y" "Line:" = false
        ∧ pyStartswith "SUGGESTION: y" "Suggestion:" = false
        ∧ scanLines ["SUGGESTION: y"] (some { description := "d" }) []
            = scanLines [] (some { description := "d" }) []) :=
  ⟨c8_prefix_match_exact " Issue: x" [] none []
      (Or.inl ⟨' ', ("Issue: x").data, by decide, by decide⟩),
    c8_prefix_match_exact "ISSUE: x" [] none []
      (Or.inr ⟨"Issue:", ("ISSUE:").data, (" x").data, Or.inl rfl,
        by decide, by decide, by decide⟩),
    c8_prefix_match_exact "LIne: 3" [] (some { description := "d" }) []
      (Or.inr ⟨"Line:", ("LIne:").data, (" 3").data, Or.inr (Or.inl rfl),
        by decide, by decide, by decide⟩),
    c8_prefix_match_exact "SUGGESTION: y" [] (some { description := "d" }) []
      (Or.inr ⟨"Suggestion:", ("SUGGESTION:").data, (" y").data, Or.inr (Or.inr rfl),
        by decide, by decide, by decide⟩)⟩

/-- C9: a block none of whose body lines starts with `Line:` is emitted
with its `line` key absent (`none`), not set to `0`; the key is present
only when a `Line:` line was seen while the block's accumulator was
open. -/
theorem c9_absent_line_key (s : String) (b : String × List String)
    (hb : b ∈ blocks (pySplitNewline s))
    (hnoline : ∀ x ∈ b.2, pyStartswith x "Line:" = false) :
    issueOfBlock b ∈ (_parse_response (PyResponse.str s)).issues
      ∧ (issueOfBlock b).line = none := by
  constructor
  · have hx : (_parse_response (PyResponse.str s)).issues
        = (blocks (pySplitNewline s)).map issueOfBlock := extract_issues_eq_blocks s
    rw [hx]
    exact List.mem_map_of_mem _ hb
  · exact foldl_stepLine_line_stable b.2 _ hnoline

theorem c9_witness :
    issueOfBlock ("Issue: a", ["Suggestion: b"])
        ∈ (_parse_response (PyResponse.str "Issue: a\nSuggestion: b")).issues
      ∧ (issueOfBlock ("Issue: a", ["Suggestion: b"])).line = none :=
  c9_absent_line_key "Issue: a\nSuggestion: b" ("Issue: a", ["Suggestion: b"])
    (by decide) (by decide)

/-- C10: within one block, later `Line:` (resp. `Suggestion:`) lines
overwrite earlier ones: the emitted record carries the value of the last
such line of the block. -/
theorem c10_last_field_wins :
    (∀ (d : String) (b1 : List String) (l : String) (b2 : List String),
        pyStartswith l "Line:" = true →
        (∀ x ∈ b2, pyStartswith x "Line:" = false) →
        (issueOfBlock (d, b1 ++ l :: b2)).line = some (lineFieldVal l))
      ∧ (∀ (d : String) (b1 : List String) (l : String) (b2 : List String),
        pyStartswith l "Suggestion:" = true →
        (∀ x ∈ b2, pyStartswith x "Suggestion:" = false) →
        (issueOfBlock (d, b1 ++ l :: b2)).suggestion
          = some (pyStrip (pyDrop 11 l))) := by
  constructor
  · intro d b1 l b2 hl hb2
    unfold issueOfBlock
    rw [List.foldl_append, List.foldl_cons, foldl_stepLine_line_stable b2 _ hb2]
    simp only [stepLine, hl, if_true]
  · intro d b1 l b2 hl hb2
    unfold issueOfBlock
    rw [List.foldl_append, List.foldl_cons, foldl_stepLine_sugg_stable b2 _ hb2]
    simp only [stepLine, hl, sugg_not_line l hl, Bool.false_eq_true, if_false, if_true]

theorem c10_witness :
    (issueOfBlock ("Issue: a", ["Line: 1", "Line: 2"])).line = some 2
      ∧ (issueOfBlock ("Issue: a", ["Suggestion: x", "Suggestion: y"])).suggestion
          = some "y" := by
  constructor
  · have h : (issueOfBlock ("Issue: a", ["Line: 1", "Line: 2"])).line
        = some (lineFieldVal "Line: 2") :=
      c10_last_field_wins.1 "Issue: a" ["Line: 1"] "Line: 2" [] (by decide) (by decide)
    rw [h]
    decide
  · have h : (issueOfBlock ("Issue: a", ["Suggestion: x", "Suggestion: y"])).suggestion
        = some (pyStrip (pyDrop 11 "Suggestion: y")) :=
      c10_last_field_wins.2 "Issue: a" ["Suggestion: x"] "Suggestion: y" []
        (by decide) (by decide)
    rw [h]
    decide
